import Mathlib

/-!
Verification development for the FTSE-index snapshot server
(`ftse_data_server_new.py`).

The Python source is shallowly embedded over `ℚ`:
Python floats become rationals, `time.time()` values become rational
parameters, dictionaries become structures, and the mutex-guarded
global pair `(ftse_data, last_update_time)` becomes an explicit
`StoreState` threaded through the operations.  Fallible paths return
`Except`/`Option`.  Each definition mirrors one function of the source,
keeping its name.
-/

namespace FtseServer

/-- Python `int(value)`: truncation toward zero. -/
def intPartTrunc (q : ℚ) : ℤ :=
  if q < 0 then -⌊-q⌋ else ⌊q⌋

/-- `round_to_quarter` (source lines 53–79): split `value` into the
Python integer part and the remaining decimal part, then map the
decimal part through the half-open thresholds
`[0,.125) ↦ 0`, `[.125,.375) ↦ .25`, `[.375,.625) ↦ .5`,
`[.625,.875) ↦ .75`, otherwise carry to the next integer.
The Python `except` branch only guards type errors, which cannot occur
in the typed embedding. -/
def round_to_quarter (value : ℚ) : ℚ :=
  let integer_part : ℤ := intPartTrunc value
  let decimal_part : ℚ := value - integer_part
  if decimal_part < 0.125 then (integer_part : ℚ)
  else if decimal_part < 0.375 then (integer_part : ℚ) + 0.25
  else if decimal_part < 0.625 then (integer_part : ℚ) + 0.5
  else if decimal_part < 0.875 then (integer_part : ℚ) + 0.75
  else ((integer_part + 1 : ℤ) : ℚ)

/-- Python `round(x, 0)`: round to the nearest integer, ties to even. -/
def pyRound0 (q : ℚ) : ℚ :=
  let n : ℤ := ⌊q⌋
  let r : ℚ := q - n
  if r < 1/2 then (n : ℚ)
  else if 1/2 < r then ((n + 1 : ℤ) : ℚ)
  else if n % 2 = 0 then (n : ℚ) else ((n + 1 : ℤ) : ℚ)

/-- `calculate_tx_price` (source lines 170–183). -/
def calculate_tx_price (ftse_price : ℚ) : ℚ :=
  let conversion_factor : ℚ := 12.28065515714918
  pyRound0 (ftse_price * conversion_factor)

/-- `calculate_tx_change` (source lines 185–197). -/
def calculate_tx_change (ftse_price : ℚ) : ℚ :=
  let base_tx : ℚ := 27556
  pyRound0 (calculate_tx_price ftse_price - base_tx)

/-- `is_market_hours` (source lines 39–51).  `weekday` follows Python's
convention (Monday = 0, …, Sunday = 6); `t` is the Taipei-local
time of day in seconds since midnight (fractional part = microseconds).
`now.replace(...)` builds bounds on the same date, so the datetime
comparison `market_start <= now <= market_end` is exactly the
time-of-day comparison against 8:45:00 = 31500 s and
13:45:00 = 49500 s. -/
def is_market_hours (weekday : ℕ) (t : ℚ) : Bool :=
  if 5 ≤ weekday then false
  else decide (31500 ≤ t ∧ t ≤ 49500)

lemma intPartTrunc_intCast (m : ℤ) : intPartTrunc (m : ℚ) = m := by
  unfold intPartTrunc
  split
  · rw [← Int.cast_neg, Int.floor_intCast, neg_neg]
  · exact Int.floor_intCast m

lemma intPartTrunc_of_nonneg {q : ℚ} (h : 0 ≤ q) : intPartTrunc q = ⌊q⌋ := by
  unfold intPartTrunc
  rw [if_neg (not_lt.mpr h)]

lemma decimal_part_nonpos_of_neg {q : ℚ} (h : q < 0) :
    q - (intPartTrunc q : ℚ) ≤ 0 := by
  unfold intPartTrunc
  rw [if_pos h]
  push_cast
  have := Int.floor_le (-q)
  linarith

lemma round_to_quarter_intCast (m : ℤ) : round_to_quarter (m : ℚ) = m := by
  unfold round_to_quarter
  rw [intPartTrunc_intCast]
  norm_num

lemma round_to_quarter_int_add_quarter (k : ℤ) (c : ℚ) (hk : 0 ≤ k)
    (hc : c = 0.25 ∨ c = 0.5 ∨ c = 0.75) :
    round_to_quarter ((k : ℚ) + c) = (k : ℚ) + c := by
  have hc0 : 0 < c ∧ c < 1 := by rcases hc with h | h | h <;> rw [h] <;> norm_num
  have hpos : (0 : ℚ) ≤ (k : ℚ) + c := by
    have : (0 : ℚ) ≤ (k : ℚ) := by exact_mod_cast hk
    linarith [hc0.1]
  have hfloor : ⌊(k : ℚ) + c⌋ = k := by
    rw [add_comm, Int.floor_add_int]
    have : ⌊c⌋ = 0 := Int.floor_eq_zero_iff.mpr ⟨le_of_lt hc0.1, hc0.2⟩
    omega
  unfold round_to_quarter
  dsimp only
  rw [intPartTrunc_of_nonneg hpos, hfloor]
  have hd : (k : ℚ) + c - (k : ℚ) = c := by ring
  rw [hd]
  rcases hc with h | h | h <;> rw [h] <;> norm_num

lemma round_to_quarter_cases (q : ℚ) :
    (∃ m : ℤ, round_to_quarter q = (m : ℚ)) ∨
    (∃ k : ℤ, 0 ≤ k ∧ ∃ c : ℚ, (c = 0.25 ∨ c = 0.5 ∨ c = 0.75) ∧
      round_to_quarter q = (k : ℚ) + c) := by
  by_cases hq : q < 0
  · have hd := decimal_part_nonpos_of_neg hq
    left
    refine ⟨intPartTrunc q, ?_⟩
    unfold round_to_quarter
    dsimp only
    rw [if_pos (by norm_num at hd ⊢; linarith)]
  · push_neg at hq
    have hk : 0 ≤ ⌊q⌋ := Int.floor_nonneg.mpr hq
    have htr : intPartTrunc q = ⌊q⌋ := intPartTrunc_of_nonneg hq
    unfold round_to_quarter
    dsimp only
    rw [htr]
    split
    · exact Or.inl ⟨⌊q⌋, rfl⟩
    · split
      · exact Or.inr ⟨⌊q⌋, hk, 0.25, Or.inl rfl, rfl⟩
      · split
        · exact Or.inr ⟨⌊q⌋, hk, 0.5, Or.inr (Or.inl rfl), rfl⟩
        · split
          · exact Or.inr ⟨⌊q⌋, hk, 0.75, Or.inr (Or.inr rfl), rfl⟩
          · exact Or.inl ⟨⌊q⌋ + 1, rfl⟩

lemma round_to_quarter_idem (q : ℚ) :
    round_to_quarter (round_to_quarter q) = round_to_quarter q := by
  rcases round_to_quarter_cases q with ⟨m, hm⟩ | ⟨k, hk, c, hc, hkc⟩
  · rw [hm, round_to_quarter_intCast]
  · rw [hkc, round_to_quarter_int_add_quarter k c hk hc]

lemma round_to_quarter_fract (q : ℚ) :
    Int.fract (round_to_quarter q) ∈ ({0, 0.25, 0.5, 0.75} : Set ℚ) := by
  unfold round_to_quarter
  dsimp only
  split
  · left; exact Int.fract_intCast _
  · split
    · right; left
      rw [add_comm, Int.fract_add_int]
      exact Int.fract_eq_self.mpr ⟨by norm_num, by norm_num⟩
    · split
      · right; right; left
        rw [add_comm, Int.fract_add_int]
        exact Int.fract_eq_self.mpr ⟨by norm_num, by norm_num⟩
      · split
        · right; right; right
          rw [add_comm, Int.fract_add_int]
          exact Int.fract_eq_self.mpr ⟨by norm_num, by norm_num⟩
        · left; exact Int.fract_intCast _

lemma pyRound0_exists_int (q : ℚ) : ∃ n : ℤ, pyRound0 q = (n : ℚ) := by
  unfold pyRound0
  dsimp only
  split
  · exact ⟨⌊q⌋, rfl⟩
  · split
    · exact ⟨⌊q⌋ + 1, rfl⟩
    · split
      · exact ⟨⌊q⌋, rfl⟩
      · exact ⟨⌊q⌋ + 1, rfl⟩

lemma pyRound0_intCast (m : ℤ) : pyRound0 (m : ℚ) = m := by
  unfold pyRound0
  rw [Int.floor_intCast]
  norm_num

/-! ### Text processing and the field extractor

`get_ftse_data_from_histock` (source lines 81–168) queries the parsed
HTML document.  The document structure the code depends on is embedded
as `HDoc`: the `ul.priceinfo` region, and for each of the three fields
the outcome of the two-level `find` (outer `span` by id, inner `span`
by the class list `['clr-rd', 'clr-gr']`).  Python string operations
are modelled over `List Char`; `float(...)` is modelled for plain
decimal literals, the only shape the scraped text can take. -/

/-- Python `str.strip()`. -/
def pyStrip (s : String) : String :=
  ⟨((s.toList.dropWhile Char.isWhitespace).reverse.dropWhile
      Char.isWhitespace).reverse⟩

/-- Python `str.replace(c, '')` for a single character `c`. -/
def removeAll (c : Char) (s : String) : String :=
  ⟨s.toList.filter (fun a => a ≠ c)⟩

/-- Python `str.startswith('-')`. -/
def startsWithDash (s : String) : Bool :=
  match s.toList with
  | '-' :: _ => true
  | _ => false

/-- Python `c in s` for a single character. -/
def containsChar (c : Char) (s : String) : Bool :=
  s.toList.contains c

def allDigits (l : List Char) : Bool :=
  l.all Char.isDigit

def natVal (l : List Char) : ℕ :=
  l.foldl (fun a c => 10 * a + (c.toNat - 48)) 0

/-- Digits-and-dot part of Python `float(...)`: an optionally dotted
digit string (`"12"`, `"12."`, `".5"`, `"12.34"`). -/
def parseUnsignedDec (l : List Char) : Option ℚ :=
  let ip := l.takeWhile (fun c => c ≠ '.')
  match l.dropWhile (fun c => c ≠ '.') with
  | [] =>
    if !ip.isEmpty && allDigits ip then some ((natVal ip : ℚ)) else none
  | _ :: fp =>
    if !(ip.isEmpty && fp.isEmpty) && allDigits ip && allDigits fp then
      some ((natVal ip : ℚ) + (natVal fp : ℚ) / (10 : ℚ) ^ fp.length)
    else none

/-- Python `float(s)` on a decimal literal with an optional sign. -/
def parseFloat (s : String) : Option ℚ :=
  match s.toList with
  | '-' :: rest => (parseUnsignedDec rest).map (fun v => -v)
  | '+' :: rest => parseUnsignedDec rest
  | l => parseUnsignedDec l

@[simp] lemma toNat_digit0 : '0'.toNat = 48 := rfl

@[simp] lemma toNat_digit1 : '1'.toNat = 49 := rfl

@[simp] lemma toNat_digit2 : '2'.toNat = 50 := rfl

@[simp] lemma toNat_digit3 : '3'.toNat = 51 := rfl

@[simp] lemma toNat_digit4 : '4'.toNat = 52 := rfl

@[simp] lemma toNat_digit5 : '5'.toNat = 53 := rfl

@[simp] lemma toNat_digit6 : '6'.toNat = 54 := rfl

@[simp] lemma toNat_digit7 : '7'.toNat = 55 := rfl

@[simp] lemma toNat_digit8 : '8'.toNat = 56 := rfl

@[simp] lemma toNat_digit9 : '9'.toNat = 57 := rfl

/-- Result of the two-level `find` for one labeled field:
the outer `span` (by id) may be absent (Python then raises
`AttributeError` from `None.find`), the inner `span` (by class) may be
absent (the code then raises the field's `FTSEDataError`), or an
element with text and class list is found. -/
inductive FieldLookup where
  | noOuter : FieldLookup
  | noInner : FieldLookup
  | found : String → List String → FieldLookup
deriving DecidableEq

/-- The parsed document as seen by the extractor. -/
structure HDoc where
  hasPriceInfo : Bool
  price : FieldLookup
  change : FieldLookup
  percent : FieldLookup
deriving DecidableEq

/-- `change_element.get('class', [''])[0]`: the first style class of
the element, `""` when the attribute is missing. -/
def firstClass (cls : List String) : String :=
  cls.headD ""

/-- Price extraction (source lines 107–116): strip, drop thousands
separators, parse, quantize.  `AttributeError` (outer `find` returned
`None`) and `ValueError` (text not numeric) are both converted to
`"無法解析價格"`; a missing inner element raises `"無法找到價格元素"`. -/
def extractPrice (f : FieldLookup) : Except String ℚ :=
  match f with
  | .noOuter => .error "無法解析價格"
  | .noInner => .error "無法找到價格元素"
  | .found text _ =>
    match parseFloat (removeAll ',' (pyStrip text)) with
    | none => .error "無法解析價格"
    | some v => .ok (round_to_quarter v)

/-- Change extraction (source lines 118–130): strip direction glyphs
and separators, parse, then negate unless the raw text already starts
with `-`, when the down glyph `▼` occurs in the text or the element's
first style class is `clr-gr`. -/
def extractChange (f : FieldLookup) : Except String ℚ :=
  match f with
  | .noOuter => .error "無法解析漲跌"
  | .noInner => .error "無法找到漲跌元素"
  | .found text cls =>
    let change_text := pyStrip text
    match parseFloat (removeAll ','
        (removeAll '▲' (removeAll '▼' change_text))) with
    | none => .error "無法解析漲跌"
    | some change =>
      .ok (if startsWithDash change_text = false ∧
            (containsChar '▼' change_text = true ∨
             firstClass cls = "clr-gr")
          then -change else change)

/-- Percent extraction (source lines 132–144): strip, drop `%`, parse
(the glyphs are NOT stripped here, so a glyph in the text makes the
parse fail), then negate under the analogous condition; note the glyph
test is on the raw element text. -/
def extractPercent (f : FieldLookup) : Except String ℚ :=
  match f with
  | .noOuter => .error "無法解析漲跌百分比"
  | .noInner => .error "無法找到漲跌百分比元素"
  | .found text cls =>
    let percent_text := removeAll '%' (pyStrip text)
    match parseFloat percent_text with
    | none => .error "無法解析漲跌百分比"
    | some change_percent =>
      .ok (if startsWithDash percent_text = false ∧
            (containsChar '▼' text = true ∨ firstClass cls = "clr-gr")
          then -change_percent else change_percent)

/-- The extraction phase of `get_ftse_data_from_histock`
(source lines 102–144): region lookup, then the three fields in
order; the first raised error aborts the attempt. -/
def extract (doc : HDoc) : Except String (ℚ × ℚ × ℚ) :=
  if doc.hasPriceInfo = false then .error "無法找到價格資訊區域"
  else
    match extractPrice doc.price with
    | .error m => .error m
    | .ok price =>
      match extractChange doc.change with
      | .error m => .error m
      | .ok change =>
        match extractPercent doc.percent with
        | .error m => .error m
        | .ok change_percent => .ok (price, change, change_percent)

/-! ### Snapshot store and refresh/fallback state machine

The globals `ftse_data` (a dict or `None`) and `last_update_time`
become `StoreState`.  Ambient inputs of a refresh attempt — the value
of `time.time()`, the formatted Taipei time string, and the result of
`is_market_hours()` — are passed as parameters `now`, `tp`, `mh`.
The network fetch is abstracted as a `FetchOutcome`: either a
`requests.RequestException` or a parsed page. -/

/-- The dict built by `update_ftse_data` / `handle_data_error`
(source lines 207–219 and 242–255). -/
structure Snapshot where
  code : String
  name : String
  price : ℚ
  change : ℚ
  changePercent : ℚ
  timestamp : ℚ
  taipei_time : String
  source : String
  tx_price : ℚ
  tx_change : ℚ
  is_market_hours : Bool
  error : Option String
deriving DecidableEq

/-- The mutex-guarded globals `ftse_data` and `last_update_time`. -/
structure StoreState where
  ftse_data : Option Snapshot
  last_update_time : ℚ
deriving DecidableEq

/-- Process-start state: `ftse_data = None`, `last_update_time = 0`
(source lines 26–27). -/
def initState : StoreState :=
  ⟨none, 0⟩

/-- `update_ftse_data` (source lines 199–225): atomically replace the
snapshot and record the write time; the `error` key is absent. -/
def update_ftse_data (now : ℚ) (tp : String) (mh : Bool)
    (price change change_percent : ℚ) (source : String)
    (tx_price tx_change : ℚ) : StoreState :=
  ⟨some ⟨"TWN", "富時台指", price, change, change_percent, now, tp,
      source, tx_price, tx_change, mh, none⟩, now⟩

/-- The fixed default snapshot synthesized by `handle_data_error`
(source lines 238–255). -/
def default_snapshot (now : ℚ) (tp : String) (mh : Bool)
    (error_message : String) : Snapshot :=
  ⟨"TWN", "富時台指", 1637.5, -68.3, -4.0, now, tp, "預設數據",
    calculate_tx_price 1637.5, calculate_tx_change 1637.5, mh,
    some error_message⟩

/-- `handle_data_error` (source lines 227–257): if a snapshot exists
and `now - last_update_time < 300`, stamp the error onto it and return
`True` (note: `last_update_time` is NOT touched on this path);
otherwise install the fixed default snapshot, set `last_update_time`
to `now`, and return `False`. -/
def handle_data_error (s : StoreState) (now : ℚ) (tp : String)
    (mh : Bool) (error_message : String) : Bool × StoreState :=
  match s.ftse_data with
  | some d =>
    if now - s.last_update_time < 300 then
      (true, ⟨some { d with error := some error_message },
        s.last_update_time⟩)
    else
      (false, ⟨some (default_snapshot now tp mh error_message), now⟩)
  | none =>
    (false, ⟨some (default_snapshot now tp mh error_message), now⟩)

/-- The network fetch, abstracted: `requests.get` either raises a
`RequestException` or yields a page that parses into an `HDoc`. -/
inductive FetchOutcome where
  | networkError : String → FetchOutcome
  | page : HDoc → FetchOutcome

/-- `get_ftse_data_from_histock` (source lines 81–168): on a network
error or any extraction error, route the distinguishing message to
`handle_data_error`; on success, compute `adjusted_price = price`,
the derived values, and store the fresh snapshot via
`update_ftse_data` with provenance `"HiStock網站"`. -/
def get_ftse_data_from_histock (s : StoreState) (now : ℚ) (tp : String)
    (mh : Bool) (input : FetchOutcome) : Bool × StoreState :=
  match input with
  | .networkError e => handle_data_error s now tp mh ("網絡錯誤: " ++ e)
  | .page doc =>
    match extract doc with
    | .error m => handle_data_error s now tp mh m
    | .ok (price, change, change_percent) =>
      let adjusted_price := price
      (true, update_ftse_data now tp mh adjusted_price change
        change_percent "HiStock網站" (calculate_tx_price adjusted_price)
        (calculate_tx_change adjusted_price))

/-- What a call to the read operation did, besides its new store
state: the snapshot handed to the caller, whether a fire-and-forget
background refresh thread was spawned, and whether the caller was
blocked on a synchronous first refresh. -/
structure ReadResult where
  returned : Option Snapshot
  spawned_refresh : Bool
  blocking_refresh : Bool

/-- `get_ftse_data` (source lines 259–276): with a snapshot present,
return it immediately, spawning a background refresh iff its age
against `last_update_time` strictly exceeds the interval
(20 s during market hours, 300 s otherwise); with no snapshot,
perform a blocking refresh first and return the resulting snapshot. -/
def get_ftse_data (s : StoreState) (now : ℚ) (tp : String) (mh : Bool)
    (input : FetchOutcome) : ReadResult × StoreState :=
  match s.ftse_data with
  | some d =>
    let update_interval : ℚ := if mh then 20 else 300
    (⟨some d, decide (now - s.last_update_time > update_interval),
      false⟩, s)
  | none =>
    let s2 := (get_ftse_data_from_histock s now tp mh input).2
    (⟨s2.ftse_data, false, true⟩, s2)

/-- One write transition of the store: some thread (the background
updater, a reader-spawned refresh, or the blocking first refresh)
completes a refresh attempt at time `now` with fetch outcome
`input`. -/
inductive Step : StoreState → StoreState → Prop where
  | refresh (s : StoreState) (now : ℚ) (tp : String) (mh : Bool)
      (input : FetchOutcome) :
      Step s (get_ftse_data_from_histock s now tp mh input).2

/-- States reachable from process start by any sequence of refresh
attempts. -/
def Reachable (s : StoreState) : Prop :=
  Relation.ReflTransGen Step initState s

/-- Store invariant: any current snapshot has a quantizer-fixed price,
and its capture timestamp coincides with the scheduling clock
`last_update_time`. -/
def StoreInv (s : StoreState) : Prop :=
  ∀ d, s.ftse_data = some d →
    round_to_quarter d.price = d.price ∧ d.timestamp = s.last_update_time

lemma round_to_quarter_default : round_to_quarter (1637.5 : ℚ) = 1637.5 := by
  norm_num [round_to_quarter, intPartTrunc]

lemma extractPrice_ok {f : FieldLookup} {p : ℚ}
    (h : extractPrice f = .ok p) : ∃ v, p = round_to_quarter v := by
  cases f with
  | noOuter => exact absurd h (by simp [extractPrice])
  | noInner => exact absurd h (by simp [extractPrice])
  | found text cls =>
    rcases hp : parseFloat (removeAll ',' (pyStrip text)) with _ | v
    · simp [extractPrice, hp] at h
    · simp only [extractPrice, hp, Except.ok.injEq] at h
      exact ⟨v, h.symm⟩

lemma extract_ok_price {doc : HDoc} {p c cp : ℚ}
    (h : extract doc = .ok (p, c, cp)) : ∃ v, p = round_to_quarter v := by
  unfold extract at h
  split at h
  · exact absurd h (by simp)
  · rcases h1 : extractPrice doc.price with m | price
    · rw [h1] at h; exact absurd h (by simp)
    · rw [h1] at h
      rcases h2 : extractChange doc.change with m | change
      · rw [h2] at h; exact absurd h (by simp)
      · rw [h2] at h
        rcases h3 : extractPercent doc.percent with m | cpv
        · rw [h3] at h; exact absurd h (by simp)
        · rw [h3] at h
          simp only [Except.ok.injEq, Prod.mk.injEq] at h
          exact extractPrice_ok (h.1 ▸ h1)

lemma handle_data_error_inv {s : StoreState} (hs : StoreInv s)
    (now : ℚ) (tp : String) (mh : Bool) (msg : String) :
    StoreInv (handle_data_error s now tp mh msg).2 := by
  unfold handle_data_error
  rcases hd : s.ftse_data with _ | d
  · intro e he
    simp only [Option.some.injEq] at he
    subst he
    exact ⟨round_to_quarter_default, rfl⟩
  · dsimp only
    split
    · intro e he
      simp only [Option.some.injEq] at he
      subst he
      obtain ⟨hq, ht⟩ := hs d hd
      exact ⟨hq, ht⟩
    · intro e he
      simp only [Option.some.injEq] at he
      subst he
      exact ⟨round_to_quarter_default, rfl⟩

lemma histock_network (s : StoreState) (now : ℚ) (tp : String)
    (mh : Bool) (e : String) :
    get_ftse_data_from_histock s now tp mh (.networkError e) =
      handle_data_error s now tp mh ("網絡錯誤: " ++ e) := rfl

lemma histock_extract_error {doc : HDoc} {m : String}
    (s : StoreState) (now : ℚ) (tp : String) (mh : Bool)
    (hex : extract doc = .error m) :
    get_ftse_data_from_histock s now tp mh (.page doc) =
      handle_data_error s now tp mh m := by
  simp [get_ftse_data_from_histock, hex]

lemma histock_extract_ok {doc : HDoc} {p c cp : ℚ}
    (s : StoreState) (now : ℚ) (tp : String) (mh : Bool)
    (hex : extract doc = .ok (p, c, cp)) :
    get_ftse_data_from_histock s now tp mh (.page doc) =
      (true, update_ftse_data now tp mh p c cp "HiStock網站"
        (calculate_tx_price p) (calculate_tx_change p)) := by
  simp [get_ftse_data_from_histock, hex]

lemma step_inv {s s2 : StoreState} (h : Step s s2) (hs : StoreInv s) :
    StoreInv s2 := by
  cases h with
  | refresh now tp mh input =>
    cases input with
    | networkError e =>
      rw [histock_network]
      exact handle_data_error_inv hs now tp mh _
    | page doc =>
      rcases hex : extract doc with m | t
      · rw [histock_extract_error s now tp mh hex]
        exact handle_data_error_inv hs now tp mh m
      · obtain ⟨p, c, cp⟩ := t
        obtain ⟨v, hv⟩ := extract_ok_price hex
        rw [histock_extract_ok s now tp mh hex]
        intro e he
        simp only [update_ftse_data, Option.some.injEq] at he
        subst he
        refine ⟨?_, rfl⟩
        rw [hv]
        exact round_to_quarter_idem v

lemma reachable_inv {s : StoreState} (h : Reachable s) : StoreInv s := by
  induction h with
  | refl => intro d hd; simp [initState] at hd
  | tail _ hstep ih => exact step_inv hstep ih

/-- A concrete reachable state: the very first refresh attempt fails
with a network error at time 1000, so the store holds the default
snapshot. -/
def exampleFailedState : StoreState :=
  (get_ftse_data_from_histock initState 1000 "t" false
    (.networkError "down")).2

lemma exampleFailedState_eq :
    exampleFailedState =
      ⟨some (default_snapshot 1000 "t" false ("網絡錯誤: " ++ "down")),
        1000⟩ := rfl

lemma exampleFailedState_reachable : Reachable exampleFailedState :=
  Relation.ReflTransGen.single
    (Step.refresh initState 1000 "t" false (.networkError "down"))

/-! ### Claim theorems -/

/-- C5: `round_to_quarter` splits its input into the Python integer
part and the decimal part and maps the decimal part through the
half-open thresholds `[0,.125) ↦ .0`, `[.125,.375) ↦ .25`,
`[.375,.625) ↦ .5`, `[.625,.875) ↦ .75`, `[.875,1) ↦` carry; hence
every result has fractional part in `{0, .25, .5, .75}`, and
`quantize(1637.12)=1637.0`, `quantize(1637.13)=1637.25`,
`quantize(1637.99)=1638.0`. -/
theorem round_to_quarter_spec (q : ℚ) :
    (q - (intPartTrunc q : ℚ) < 0.125 →
      round_to_quarter q = (intPartTrunc q : ℚ)) ∧
    (0.125 ≤ q - (intPartTrunc q : ℚ) → q - (intPartTrunc q : ℚ) < 0.375 →
      round_to_quarter q = (intPartTrunc q : ℚ) + 0.25) ∧
    (0.375 ≤ q - (intPartTrunc q : ℚ) → q - (intPartTrunc q : ℚ) < 0.625 →
      round_to_quarter q = (intPartTrunc q : ℚ) + 0.5) ∧
    (0.625 ≤ q - (intPartTrunc q : ℚ) → q - (intPartTrunc q : ℚ) < 0.875 →
      round_to_quarter q = (intPartTrunc q : ℚ) + 0.75) ∧
    (0.875 ≤ q - (intPartTrunc q : ℚ) →
      round_to_quarter q = (intPartTrunc q : ℚ) + 1) ∧
    Int.fract (round_to_quarter q) ∈ ({0, 0.25, 0.5, 0.75} : Set ℚ) ∧
    round_to_quarter 1637.12 = 1637 ∧
    round_to_quarter 1637.13 = 1637.25 ∧
    round_to_quarter 1637.99 = 1638 := by
  refine ⟨?_, ?_, ?_, ?_, ?_, round_to_quarter_fract q,
    by norm_num [round_to_quarter, intPartTrunc],
    by norm_num [round_to_quarter, intPartTrunc],
    by norm_num [round_to_quarter, intPartTrunc]⟩
  · intro h1
    unfold round_to_quarter
    dsimp only
    rw [if_pos h1]
  · intro h1 h2
    unfold round_to_quarter
    dsimp only
    rw [if_neg (by linarith), if_pos h2]
  · intro h1 h2
    unfold round_to_quarter
    dsimp only
    rw [if_neg (by linarith), if_neg (by linarith), if_pos h2]
  · intro h1 h2
    unfold round_to_quarter
    dsimp only
    rw [if_neg (by linarith), if_neg (by linarith), if_neg (by linarith),
      if_pos h2]
  · intro h1
    unfold round_to_quarter
    dsimp only
    rw [if_neg (by linarith), if_neg (by linarith), if_neg (by linarith),
      if_neg (by linarith)]
    push_cast
    ring

/-- Witness for C5 at the concrete input 1637.13, whose decimal part
falls in the second threshold band. -/
theorem round_to_quarter_spec_witness :
    round_to_quarter 1637.13 = (intPartTrunc 1637.13 : ℚ) + 0.25 :=
  (round_to_quarter_spec 1637.13).2.1
    (by norm_num [intPartTrunc]) (by norm_num [intPartTrunc])

/-- C6: the market classifier returns `false` on the two weekend
weekdays (Python weekdays 5 and 6) at any time of day, and on other
weekdays returns `true` iff the local time of day lies in
`[08:45:00, 13:45:00]` inclusive; in particular Tuesday (weekday 1)
08:45:00 and 13:44:59 give `true` and 13:45:01 gives `false`. -/
theorem is_market_hours_spec (weekday : ℕ) (t : ℚ) :
    (5 ≤ weekday → is_market_hours weekday t = false) ∧
    (weekday < 5 →
      (is_market_hours weekday t = true ↔ 31500 ≤ t ∧ t ≤ 49500)) ∧
    is_market_hours 5 t = false ∧
    is_market_hours 6 t = false ∧
    is_market_hours 1 31500 = true ∧
    is_market_hours 1 49499 = true ∧
    is_market_hours 1 49501 = false := by
  refine ⟨?_, ?_, ?_, ?_, by norm_num [is_market_hours],
    by norm_num [is_market_hours], by norm_num [is_market_hours]⟩
  · intro h
    unfold is_market_hours
    rw [if_pos h]
  · intro h
    unfold is_market_hours
    rw [if_neg (by omega)]
    exact decide_eq_true_iff
  · unfold is_market_hours
    rw [if_pos (by norm_num)]
  · unfold is_market_hours
    rw [if_pos (by norm_num)]

/-- Witness for C6: Tuesday at exactly 08:45:00 is classified as
market hours. -/
theorem is_market_hours_spec_witness : is_market_hours 1 31500 = true :=
  ((is_market_hours_spec 1 31500).2.1 (by norm_num)).mpr (by norm_num)

/-- C7: the derived-value calculators are deterministic, and the
derived offset equals the derived price minus the fixed baseline
27556 exactly, for every input price. -/
theorem tx_values_relation (p q : ℚ) (hpq : p = q) :
    calculate_tx_price p = calculate_tx_price q ∧
    calculate_tx_change p = calculate_tx_change q ∧
    calculate_tx_change p = calculate_tx_price p - 27556 := by
  subst hpq
  refine ⟨rfl, rfl, ?_⟩
  obtain ⟨n, hn⟩ := pyRound0_exists_int (p * 12.28065515714918)
  have h1 : calculate_tx_price p = (n : ℚ) := hn
  unfold calculate_tx_change
  dsimp only
  rw [h1]
  have h2 : (n : ℚ) - 27556 = ((n - 27556 : ℤ) : ℚ) := by push_cast; ring
  rw [h2, pyRound0_intCast]

/-- Witness for C7 at the concrete price 1637.5. -/
theorem tx_values_relation_witness :
    calculate_tx_change 1637.5 = calculate_tx_price 1637.5 - 27556 :=
  (tx_values_relation 1637.5 1637.5 rfl).2.2

/-- C10: in every reachable store state — i.e. after any sequence of
successful fetches, reuse-on-failure fallbacks, and default fallbacks —
the current snapshot's price is a fixed point of the quantizer. -/
theorem price_always_quantized {s : StoreState} (hr : Reachable s) :
    ∀ d, s.ftse_data = some d → round_to_quarter d.price = d.price :=
  fun d hd => (reachable_inv hr d hd).1

/-- Witness for C10 at a concrete reachable state holding the default
snapshot. -/
theorem price_always_quantized_witness :
    round_to_quarter
        (default_snapshot 1000 "t" false ("網絡錯誤: " ++ "down")).price =
      (default_snapshot 1000 "t" false ("網絡錯誤: " ++ "down")).price :=
  price_always_quantized exampleFailedState_reachable
    (default_snapshot 1000 "t" false ("網絡錯誤: " ++ "down")) rfl

/-- C1: on a failed refresh at a reachable state whose current
snapshot is younger than 300 s (against its capture time, which on
reachable states coincides with the scheduling clock), the fallback
handler keeps the snapshot with only the `error` field set to the
incoming message: all other fields, the capture timestamp included,
are unchanged. -/
theorem handle_data_error_reuse_within_window
    (s : StoreState) (now : ℚ) (tp error_message : String) (mh : Bool)
    (d : Snapshot) (hr : Reachable s) (hd : s.ftse_data = some d)
    (hfresh : now - d.timestamp < 300) :
    (handle_data_error s now tp mh error_message).1 = true ∧
    (handle_data_error s now tp mh error_message).2.ftse_data =
      some { d with error := some error_message } := by
  have hts : d.timestamp = s.last_update_time := (reachable_inv hr d hd).2
  have hcond : now - s.last_update_time < 300 := by
    rw [← hts]; exact hfresh
  simp [handle_data_error, hd, hcond]

/-- Witness for C1: a failed refresh at time 1100, 100 s after the
reachable state produced by a failed first fetch at time 1000. -/
theorem handle_data_error_reuse_within_window_witness :
    (handle_data_error exampleFailedState 1100 "t" false "boom").1 =
      true ∧
    (handle_data_error exampleFailedState 1100 "t" false "boom").2.ftse_data
      = some { default_snapshot 1000 "t" false ("網絡錯誤: " ++ "down")
          with error := some "boom" } :=
  handle_data_error_reuse_within_window exampleFailedState 1100 "t"
    "boom" false (default_snapshot 1000 "t" false ("網絡錯誤: " ++ "down"))
    exampleFailedState_reachable rfl (by norm_num [default_snapshot])

/-- C2: on a failed refresh at a reachable state with no current
snapshot, or whose snapshot is 300 s old or older, the fallback
handler installs the fixed default snapshot: price 1637.5, fixed
change and percent, provenance `"預設數據"`, derived values computed
from 1637.5, a fresh timestamp, and the error message attached. -/
theorem handle_data_error_default_fallback
    (s : StoreState) (now : ℚ) (tp error_message : String) (mh : Bool)
    (hr : Reachable s)
    (hcond : s.ftse_data = none ∨
      ∃ d, s.ftse_data = some d ∧ 300 ≤ now - d.timestamp) :
    handle_data_error s now tp mh error_message =
      (false, ⟨some (default_snapshot now tp mh error_message), now⟩) ∧
    (default_snapshot now tp mh error_message).price = 1637.5 ∧
    (default_snapshot now tp mh error_message).change = -68.3 ∧
    (default_snapshot now tp mh error_message).changePercent = -4.0 ∧
    (default_snapshot now tp mh error_message).source = "預設數據" ∧
    (default_snapshot now tp mh error_message).tx_price =
      calculate_tx_price 1637.5 ∧
    (default_snapshot now tp mh error_message).tx_change =
      calculate_tx_change 1637.5 ∧
    (default_snapshot now tp mh error_message).timestamp = now ∧
    (default_snapshot now tp mh error_message).error =
      some error_message := by
  refine ⟨?_, rfl, rfl, rfl, rfl, rfl, rfl, rfl, rfl⟩
  rcases hcond with hnone | ⟨d, hd, hstale⟩
  · simp [handle_data_error, hnone]
  · have hts : d.timestamp = s.last_update_time := (reachable_inv hr d hd).2
    have hc : ¬ now - s.last_update_time < 300 := by
      rw [← hts]; linarith
    simp [handle_data_error, hd, hc]

/-- Witness for C2: the very first refresh attempt fails at the start
state, where no snapshot exists. -/
theorem handle_data_error_default_fallback_witness :
    handle_data_error initState 5 "t" false "e" =
      (false, ⟨some (default_snapshot 5 "t" false "e"), 5⟩) ∧
    (default_snapshot 5 "t" false "e").price = 1637.5 ∧
    (default_snapshot 5 "t" false "e").change = -68.3 ∧
    (default_snapshot 5 "t" false "e").changePercent = -4.0 ∧
    (default_snapshot 5 "t" false "e").source = "預設數據" ∧
    (default_snapshot 5 "t" false "e").tx_price =
      calculate_tx_price 1637.5 ∧
    (default_snapshot 5 "t" false "e").tx_change =
      calculate_tx_change 1637.5 ∧
    (default_snapshot 5 "t" false "e").timestamp = 5 ∧
    (default_snapshot 5 "t" false "e").error = some "e" :=
  handle_data_error_default_fallback initState 5 "t" "e" false
    Relation.ReflTransGen.refl (Or.inl rfl)

/-- C3 counterexample: a failed refresh on the reuse path does NOT
update the scheduling clock.  At the reachable state with
`last_update_time = 1000`, a failed refresh at `now = 1100` takes the
reuse path (first component `true`) yet leaves `last_update_time` at
1000 ≠ 1100. -/
theorem last_update_time_reuse_counterexample :
    (handle_data_error exampleFailedState 1100 "t" false "again").1 =
      true ∧
    (handle_data_error exampleFailedState 1100 "t" false "again").2.last_update_time
      = 1000 ∧
    (1000 : ℚ) ≠ 1100 := by
  have hc : (1100 : ℚ) - (1000 : ℚ) < 300 := by norm_num
  refine ⟨?_, ?_, by norm_num⟩ <;>
    simp [exampleFailedState_eq, handle_data_error, hc]

/-- C3 as amended: a failed refresh updates the scheduling clock
`last_update_time` to `now` only on the default-synthesis path; the
reuse-within-window path leaves it unchanged (as it leaves the capture
timestamp unchanged). -/
theorem handle_data_error_last_update_amended
    (s : StoreState) (now : ℚ) (tp error_message : String) (mh : Bool) :
    ((handle_data_error s now tp mh error_message).1 = true →
      (handle_data_error s now tp mh error_message).2.last_update_time =
        s.last_update_time) ∧
    ((handle_data_error s now tp mh error_message).1 = false →
      (handle_data_error s now tp mh error_message).2.last_update_time =
        now) := by
  rcases hd : s.ftse_data with _ | d
  · simp [handle_data_error, hd]
  · by_cases hc : now - s.last_update_time < 300
    · simp [handle_data_error, hd, hc]
    · simp [handle_data_error, hd, hc]

/-- Witness for the amended C3: the first failed refresh (default
path) sets the scheduling clock to `now = 5`. -/
theorem handle_data_error_last_update_amended_witness :
    (handle_data_error initState 5 "t" false "e").2.last_update_time =
      5 :=
  (handle_data_error_last_update_amended initState 5 "t" "e" false).2 rfl

/-- C8: `get_ftse_data` with a snapshot present returns it
immediately without blocking and leaves the store unchanged, spawning
a background refresh exactly when the age against the scheduling
clock strictly exceeds the threshold (20 s in market hours, 300 s
otherwise); with no snapshot it performs the blocking refresh and
returns the resulting snapshot. -/
theorem get_ftse_data_read_policy (s : StoreState) (now : ℚ)
    (tp : String) (mh : Bool) (input : FetchOutcome) :
    (∀ d, s.ftse_data = some d →
      (get_ftse_data s now tp mh input).1.returned = some d ∧
      (get_ftse_data s now tp mh input).1.blocking_refresh = false ∧
      (get_ftse_data s now tp mh input).2 = s ∧
      ((get_ftse_data s now tp mh input).1.spawned_refresh = true ↔
        now - s.last_update_time > (if mh then (20 : ℚ) else 300))) ∧
    (s.ftse_data = none →
      (get_ftse_data s now tp mh input).1.blocking_refresh = true ∧
      (get_ftse_data s now tp mh input).1.spawned_refresh = false ∧
      (get_ftse_data s now tp mh input).2 =
        (get_ftse_data_from_histock s now tp mh input).2 ∧
      (get_ftse_data s now tp mh input).1.returned =
        (get_ftse_data_from_histock s now tp mh input).2.ftse_data) := by
  constructor
  · intro d hd
    refine ⟨?_, ?_, ?_, ?_⟩ <;> simp [get_ftse_data, hd]
  · intro hnone
    refine ⟨?_, ?_, ?_, ?_⟩ <;> simp [get_ftse_data, hnone]

/-- Witness for C8: a read at the empty start state blocks on a first
refresh (here failing with a network error) and returns the installed
default snapshot. -/
theorem get_ftse_data_read_policy_witness :
    (get_ftse_data initState 1000 "t" false
        (.networkError "down")).1.blocking_refresh = true ∧
    (get_ftse_data initState 1000 "t" false
        (.networkError "down")).1.spawned_refresh = false ∧
    (get_ftse_data initState 1000 "t" false (.networkError "down")).2 =
      (get_ftse_data_from_histock initState 1000 "t" false
        (.networkError "down")).2 ∧
    (get_ftse_data initState 1000 "t" false
        (.networkError "down")).1.returned =
      (get_ftse_data_from_histock initState 1000 "t" false
        (.networkError "down")).2.ftse_data :=
  (get_ftse_data_read_policy initState 1000 "t" false
    (.networkError "down")).2 rfl

/-- C4 counterexample: the class that triggers negation is `clr-gr`
(the green class), not the red class `clr-rd`.  With the red class on
the element (no glyph, no explicit minus) the extracted change is NOT
negated, and with the green class it IS negated — contradicting the
claim that the "red" style class indicates the down direction. -/
theorem sign_correction_red_class_counterexample :
    extractChange (FieldLookup.found "5.2" ["clr-rd"]) =
      Except.ok (26/5) ∧
    extractChange (FieldLookup.found "5.2" ["clr-gr"]) =
      Except.ok (-(26/5)) ∧
    (26/5 : ℚ) ≠ -(26/5) := by
  refine ⟨?_, ?_, by norm_num⟩ <;>
    norm_num +decide [extractChange, pyStrip, removeAll, startsWithDash,
      containsChar, firstClass, parseFloat, parseUnsignedDec, natVal,
      allDigits, String.toList, List.dropWhile, List.takeWhile,
      List.filter]

/-- C4 as amended: an explicit leading `-` in the raw text is trusted
as-is and never re-negated; a value without a leading minus is
negated exactly when the down glyph `▼` occurs in the text or the
element's first style class is the green class `clr-gr` (the site's
red-up/green-down convention) — so `"-5.2"` gives −5.2, `"▼5.2"`
gives −5.2, and `"-5.2▼"` gives −5.2 with no double negation; the
same rule governs the percent field (whose glyph test reads the raw
element text). -/
theorem sign_correction_green_class (cls : List String) :
    extractChange (FieldLookup.found "-5.2" cls) = Except.ok (-(26/5)) ∧
    extractChange (FieldLookup.found "▼5.2" cls) = Except.ok (-(26/5)) ∧
    extractChange (FieldLookup.found "5.2" cls) =
      Except.ok (if firstClass cls = "clr-gr" then -(26/5) else 26/5) ∧
    extractChange (FieldLookup.found "-5.2▼" cls) =
      Except.ok (-(26/5)) ∧
    extractPercent (FieldLookup.found "-5.2%" cls) =
      Except.ok (-(26/5)) ∧
    extractPercent (FieldLookup.found "5.2%" cls) =
      Except.ok (if firstClass cls = "clr-gr" then -(26/5) else 26/5) := by
  by_cases hg : firstClass cls = "clr-gr" <;>
    refine ⟨?_, ?_, ?_, ?_, ?_, ?_⟩ <;>
      norm_num +decide [extractChange, extractPercent, pyStrip,
        removeAll, startsWithDash, containsChar, parseFloat,
        parseUnsignedDec, natVal, allDigits, String.toList,
        List.dropWhile, List.takeWhile, List.filter, hg]

/-- A price-field extraction that produced no value failed with one of
the two price-specific messages. -/
lemma extractPrice_error_msgs {f : FieldLookup}
    (h : ∀ v, extractPrice f ≠ Except.ok v) :
    extractPrice f = Except.error "無法解析價格" ∨
    extractPrice f = Except.error "無法找到價格元素" := by
  cases f with
  | noOuter => exact Or.inl rfl
  | noInner => exact Or.inr rfl
  | found text cls =>
    rcases hp : parseFloat (removeAll ',' (pyStrip text)) with _ | v
    · exact Or.inl (by simp [extractPrice, hp])
    · exact absurd (by simp [extractPrice, hp]) (h (round_to_quarter v))

/-- C9: when locating or parsing the price field fails while the
change and percent fields are well-formed, the refresh attempt aborts
with a price-specific message distinct from the four change/percent
messages, routes exactly that message to the fallback handler, and
the store afterwards holds either the previous snapshot with only an
error annotation or the fixed default — never a snapshot mixing the
freshly extracted change/percent with stored fields. -/
theorem price_error_triggers_fallback
    (s : StoreState) (now : ℚ) (tp : String) (mh : Bool) (doc : HDoc)
    (c cp : ℚ) (hinfo : doc.hasPriceInfo = true)
    (hpf : ∀ v, extractPrice doc.price ≠ Except.ok v)
    (hc : extractChange doc.change = Except.ok c)
    (hcp : extractPercent doc.percent = Except.ok cp) :
    ∃ m, (m = "無法解析價格" ∨ m = "無法找到價格元素") ∧
      m ≠ "無法解析漲跌" ∧ m ≠ "無法找到漲跌元素" ∧
      m ≠ "無法解析漲跌百分比" ∧ m ≠ "無法找到漲跌百分比元素" ∧
      extract doc = Except.error m ∧
      get_ftse_data_from_histock s now tp mh (.page doc) =
        handle_data_error s now tp mh m ∧
      (∀ d0, s.ftse_data = some d0 →
        (get_ftse_data_from_histock s now tp mh (.page doc)).2.ftse_data
          = some { d0 with error := some m } ∨
        (get_ftse_data_from_histock s now tp mh (.page doc)).2.ftse_data
          = some (default_snapshot now tp mh m)) := by
  have hmsg := extractPrice_error_msgs hpf
  have hex : ∃ m, (m = "無法解析價格" ∨ m = "無法找到價格元素") ∧
      extractPrice doc.price = Except.error m := by
    rcases hmsg with h | h
    · exact ⟨_, Or.inl rfl, h⟩
    · exact ⟨_, Or.inr rfl, h⟩
  obtain ⟨m, hm, hperr⟩ := hex
  have hextract : extract doc = Except.error m := by
    simp [extract, hinfo, hperr]
  have hroute : get_ftse_data_from_histock s now tp mh (.page doc) =
      handle_data_error s now tp mh m :=
    histock_extract_error s now tp mh hextract
  refine ⟨m, hm, ?_, ?_, ?_, ?_, hextract, hroute, ?_⟩
  · rcases hm with h | h <;> subst h <;> decide
  · rcases hm with h | h <;> subst h <;> decide
  · rcases hm with h | h <;> subst h <;> decide
  · rcases hm with h | h <;> subst h <;> decide
  · intro d0 hd0
    rw [hroute]
    by_cases hw : now - s.last_update_time < 300
    · left
      simp [handle_data_error, hd0, hw]
    · right
      simp [handle_data_error, hd0, hw]

/-- Witness for C9: a page whose price field lacks the inner span
while change and percent parse fine, failing against the start
state. -/
theorem price_error_triggers_fallback_witness :
    ∃ m, (m = "無法解析價格" ∨ m = "無法找到價格元素") ∧
      m ≠ "無法解析漲跌" ∧ m ≠ "無法找到漲跌元素" ∧
      m ≠ "無法解析漲跌百分比" ∧ m ≠ "無法找到漲跌百分比元素" ∧
      extract ⟨true, .noInner, .found "5.2" [], .found "3.1%" []⟩ =
        Except.error m ∧
      get_ftse_data_from_histock initState 2000 "t" false
          (.page ⟨true, .noInner, .found "5.2" [], .found "3.1%" []⟩) =
        handle_data_error initState 2000 "t" false m ∧
      (∀ d0, initState.ftse_data = some d0 →
        (get_ftse_data_from_histock initState 2000 "t" false
            (.page ⟨true, .noInner, .found "5.2" [],
              .found "3.1%" []⟩)).2.ftse_data
          = some { d0 with error := some m } ∨
        (get_ftse_data_from_histock initState 2000 "t" false
            (.page ⟨true, .noInner, .found "5.2" [],
              .found "3.1%" []⟩)).2.ftse_data
          = some (default_snapshot 2000 "t" false m)) :=
  price_error_triggers_fallback initState 2000 "t" false
    ⟨true, .noInner, .found "5.2" [], .found "3.1%" []⟩ (26/5) (31/10)
    rfl (fun v h => by simp [extractPrice] at h)
    (by norm_num +decide [extractChange, pyStrip, removeAll,
      startsWithDash, containsChar, firstClass, parseFloat,
      parseUnsignedDec, natVal, allDigits, String.toList,
      List.dropWhile, List.takeWhile, List.filter])
    (by norm_num +decide [extractPercent, pyStrip, removeAll,
      startsWithDash, containsChar, firstClass, parseFloat,
      parseUnsignedDec, natVal, allDigits, String.toList,
      List.dropWhile, List.takeWhile, List.filter])

end FtseServer
